import Mathlib

/-
Verification development for the pinetree polymer engine
(src/pinetree/polymer.cpp together with src/event_signal.hpp).

The C++ code is shallowly embedded as follows:
* C++ `double` is modelled as the exact rational type `Rat`; the claims under
  study are exact bookkeeping identities, so cancellation is exact here.
* Mutable shared objects (`Promoter::Ptr`, `Terminator::Ptr`,
  `Polymerase::Ptr`) become values stored in lists inside the polymer state;
  object identity for polymerases is modelled by a `pid` field (two distinct
  `shared_ptr`s never compare equal, so reachable states carry distinct pids).
* Exceptions become an `Option PErr` field in each operation's result,
  together with the state at the moment of the throw.
* Randomness (`Random::random`, `Random::WeightedChoice`) is passed in as an
  explicit oracle (`us : Nat → Rat` for uniform draws, `choice : Nat` for the
  uniform pick among free promoters).
* `Signal` slots (event_signal.hpp) for `move_signal_` are recorded as data:
  the only connection the code ever makes is
  `pol->move_signal_.ConnectMember(transcript, &Transcript::ShiftMask)`
  (Genome::Bind), so a slot is the index of the connected transcript in the
  simulation's transcript registry; emitting applies `ShiftMask` to each
  connected transcript in connection order (std::map iterates ids in
  increasing order, and ids increase with each connect).

Classes whose definitions are not part of the two given source files
(IntervalTree.h, the site classes of feature.hpp, Polymerase, Mask,
choices.hpp) are modelled from the specification; each such definition says
so in its doc comment.
-/

/-- Error kinds corresponding to the `throw std::runtime_error` sites of
polymer.cpp, plus `badIndex` which models an out-of-bounds vector access
(undefined behaviour in C++, an error in this model). -/
inductive PErr where
  | noFreePromoter
  | noInteraction
  | maskOverlap
  | noPropensity
  | invalidOverlapPol
  | invalidOverlapMask
  | negativeUncovered
  | propListSize
  | missingWeight
  | badIndex
  | polNotFound
deriving DecidableEq, Repr

/-- Modelled from the spec (§3, §4.3): a Promoter is a binding site with a
name, an inclusive span, an interaction map (only the keys matter for
`CheckInteraction`), a covered bit, a previously-covered snapshot bit
(`SaveState` copies covered into it), and an optional gene name. -/
structure Promoter where
  name : String
  start : Int
  stop : Int
  interactions : List String
  covered : Bool
  oldCovered : Bool
  gene : String
deriving DecidableEq, Repr

/-- Modelled from the spec (§3, §4.3): a Terminator is a release site with a
per-species efficiency map (its keys double as the interaction map), a sticky
readthrough flag, a reading frame and a gene name. -/
structure Terminator where
  name : String
  start : Int
  stop : Int
  efficiencies : List (String × Rat)
  readthrough : Bool
  readingFrame : Int
  gene : String
deriving DecidableEq, Repr

/-- Modelled from the spec (§3): the mask spans `[start, stop]` and lists the
species that may push it aside. -/
structure MaskS where
  name : String
  start : Int
  stop : Int
  interactions : List String
deriving DecidableEq, Repr

/-- Modelled from the spec (§3, §4.4): a polymerase.  `pid` models the
`shared_ptr` object identity; `slots` records the transcripts connected to
`move_signal_` (see the header comment), as indices into the simulation's
transcript registry. -/
structure Pol where
  pid : Nat
  name : String
  footprint : Int
  speed : Rat
  start : Int
  stop : Int
  readingFrame : Int
  slots : List Nat
deriving DecidableEq, Repr

/-- The data members of `Polymer` (polymer.hpp) that polymer.cpp manipulates.
The two interval trees are represented by the lists of sites they were built
from (`binding_intervals_` / `release_intervals_` carry the same coordinates
as the sites themselves, see `Genome::AddPromoter` / `AddTerminator`);
`uncovered_` and `species_log_` are association lists modelling `std::map`.
`idx` is the `index_` member used by `termination_signal_`. -/
structure PolymerState where
  name : String
  start : Int
  stop : Int
  weights : List Rat
  mask : MaskS
  bindingSites : List Promoter
  releaseSites : List Terminator
  pols : List Pol
  propList : List Rat
  propSum : Rat
  uncovered : List (String × Int)
  speciesLog : List (String × Int)
  idx : Int
deriving DecidableEq, Repr

def polDflt : Pol := ⟨0, "", 0, 0, 0, 0, 0, []⟩

def promDflt : Promoter := ⟨"", 0, 0, [], false, false, ""⟩

def termDflt : Terminator := ⟨"", 0, 0, [], false, 0, ""⟩

/-- `insAt k a l` inserts `a` before position `k` (mirrors
`std::vector::insert` at iterator `begin() + k`; past-the-end appends). -/
def insAt {α : Type} : Nat → α → List α → List α
  | 0, a, l => a :: l
  | _ + 1, a, [] => [a]
  | n + 1, a, x :: l => x :: insAt n a l

/-- `delAt i l` erases the element at position `i` (mirrors
`std::vector::erase` at `begin() + i`). -/
def delAt {α : Type} : Nat → List α → List α
  | _, [] => []
  | 0, _ :: l => l
  | n + 1, x :: l => x :: delAt n l

/-- `modAt i f l` applies `f` to the element at position `i`. -/
def modAt {α : Type} : Nat → (α → α) → List α → List α
  | _, _, [] => []
  | 0, f, x :: l => f x :: l
  | n + 1, f, x :: l => x :: modAt n f l

theorem length_insAt {α : Type} (k : Nat) (a : α) (l : List α) :
    (insAt k a l).length = l.length + 1 := by
  induction l generalizing k with
  | nil => cases k <;> rfl
  | cons x t ih => cases k with
    | zero => rfl
    | succ n => simp [insAt, ih]

theorem map_insAt {α β : Type} (f : α → β) (k : Nat) (a : α) (l : List α) :
    (insAt k a l).map f = insAt k (f a) (l.map f) := by
  induction l generalizing k with
  | nil => cases k <;> rfl
  | cons x t ih => cases k with
    | zero => rfl
    | succ n => simp [insAt, ih]

theorem sum_insAt (k : Nat) (a : Rat) (l : List Rat) :
    (insAt k a l).sum = l.sum + a := by
  induction l generalizing k with
  | nil => cases k <;> simp [insAt]
  | cons x t ih => cases k with
    | zero => simp [insAt]; ring
    | succ n => simp [insAt, ih]; ring

theorem length_delAt {α : Type} (i : Nat) (l : List α) (h : i < l.length) :
    (delAt i l).length = l.length - 1 := by
  induction l generalizing i with
  | nil => simp at h
  | cons x t ih => cases i with
    | zero => rfl
    | succ n =>
      simp only [List.length_cons] at h
      simp [delAt, ih n (by omega)]
      omega

theorem map_delAt {α β : Type} (f : α → β) (i : Nat) (l : List α) :
    (delAt i l).map f = delAt i (l.map f) := by
  induction l generalizing i with
  | nil => cases i <;> rfl
  | cons x t ih => cases i with
    | zero => rfl
    | succ n => simp [delAt, ih]

theorem sum_delAt (i : Nat) (l : List Rat) (h : i < l.length) :
    (delAt i l).sum = l.sum - l.getD i 0 := by
  induction l generalizing i with
  | nil => simp at h
  | cons x t ih => cases i with
    | zero =>
      simp only [delAt, List.sum_cons, List.getD_cons_zero]
      ring
    | succ n =>
      simp only [List.length_cons] at h
      simp [delAt, ih n (by omega), List.getD_cons_succ]
      ring

theorem delAt_set {α : Type} (i : Nat) (a : α) (l : List α) :
    delAt i (l.set i a) = delAt i l := by
  induction l generalizing i with
  | nil => cases i <;> rfl
  | cons x t ih => cases i with
    | zero => rfl
    | succ n => simp [delAt, List.set, ih]

theorem map_set' {α β : Type} (f : α → β) (i : Nat) (a : α) (l : List α) :
    (l.set i a).map f = (l.map f).set i (f a) := by
  induction l generalizing i with
  | nil => cases i <;> rfl
  | cons x t ih => cases i with
    | zero => rfl
    | succ n => simp [List.set, ih]

theorem sum_set (i : Nat) (a : Rat) (l : List Rat) (h : i < l.length) :
    (l.set i a).sum = l.sum - l.getD i 0 + a := by
  induction l generalizing i with
  | nil => simp at h
  | cons x t ih => cases i with
    | zero => simp [List.set]; ring
    | succ n =>
      simp only [List.length_cons] at h
      simp [List.set, ih n (by omega), List.getD_cons_succ]
      ring

theorem getD_set_self {α : Type} (i : Nat) (a d : α) (l : List α) (h : i < l.length) :
    (l.set i a).getD i d = a := by
  induction l generalizing i with
  | nil => simp at h
  | cons x t ih => cases i with
    | zero => rfl
    | succ n =>
      simp only [List.length_cons] at h
      simp only [List.set, List.getD_cons_succ]
      exact ih n (by omega)

theorem set_getD_self {α : Type} (i : Nat) (d : α) (l : List α) (h : i < l.length) :
    l.set i (l.getD i d) = l := by
  induction l generalizing i with
  | nil => simp at h
  | cons x t ih => cases i with
    | zero => rfl
    | succ n =>
      simp only [List.length_cons] at h
      simp only [List.set, List.getD_cons_succ]
      rw [ih n (by omega)]

theorem set_set' {α : Type} (i : Nat) (a b : α) (l : List α) :
    (l.set i a).set i b = l.set i b := by
  induction l generalizing i with
  | nil => cases i <;> rfl
  | cons x t ih => cases i with
    | zero => rfl
    | succ n => simp [List.set, ih]

/-- Modelled from the spec (§4.3): `cover()` sets the covered bit. -/
def promCover (p : Promoter) : Promoter := { p with covered := true }

/-- Modelled from the spec (§4.3): `uncover()` clears the covered bit. -/
def promUncover (p : Promoter) : Promoter := { p with covered := false }

/-- Modelled from the spec (§4.3): `save_state()` copies `covered` into
`previously_covered`. -/
def promSave (p : Promoter) : Promoter := { p with oldCovered := p.covered }

/-- Modelled from the spec (§4.3): `clone()` returns a copy with state reset
to uncovered. -/
def promClone (p : Promoter) : Promoter := { p with covered := false, oldCovered := false }

/-- Modelled from the spec (§4.3): terminator `clone()`, state reset (fresh
readthrough flag). -/
def termClone (t : Terminator) : Terminator := { t with readthrough := false }

/-- Modelled from the spec (§4.3): `check_interaction(species)` for promoters
and the mask is key membership in the interaction map. -/
def maskCheckInteraction (m : MaskS) (nm : String) : Bool := m.interactions.contains nm

/-- Modelled from the spec (§4.6 CheckTermination): a terminator admits a
polymerase iff its interaction (efficiency) map has the polymerase's name and
the reading frames agree. -/
def termCheckInteraction (t : Terminator) (nm : String) (frame : Int) : Bool :=
  (t.efficiencies.find? (fun e => e.1 = nm)).isSome && (t.readingFrame == frame)

/-- Modelled from the spec (§4.3): `efficiency(species)`, 0 if absent. -/
def termEfficiency (t : Terminator) (nm : String) : Rat :=
  (((t.efficiencies.find? (fun e => e.1 = nm)).map (fun e => e.2)).getD 0)

/-- Modelled from the spec (§4.1): `find_overlapping(q_start, q_stop)` keeps
every stored interval with `start ≤ q_stop ∧ stop ≥ q_start`.  `a`/`b` are
the query bounds, `st`/`sp` the stored interval. -/
def siteOverlap (a b st sp : Int) : Bool := st ≤ b && a ≤ sp

/-- Modelled from the spec (§4.1): `find_contained(q_start, q_stop)` keeps
the stored intervals fully inside `[q_start, q_stop]`. -/
def siteContained (a b st sp : Int) : Bool := a ≤ st && sp ≤ b

/-- `std::map::find`-style lookup in an association list. -/
def alFind (m : List (String × Int)) (k : String) : Option Int :=
  (m.find? (fun e => e.1 = k)).map (fun e => e.2)

/-- `map[k] = v` on an association list: replace the first binding or append. -/
def alSet : List (String × Int) → String → Int → List (String × Int)
  | [], k, v => [(k, v)]
  | (k0, v0) :: t, k, v => if k0 = k then (k, v) :: t else (k0, v0) :: alSet t k v

/-- `Polymer::CoverBindingSite` (polymer.cpp:127-143): first sight
initialises `uncovered_[name]` to 0, otherwise decrements; throws if the
count went negative; on success also decrements `species_log_[name]`
(first sight: −1). -/
def CoverBindingSite (s : PolymerState) (nm : String) : PolymerState × Option PErr :=
  let u1 := match alFind s.uncovered nm with
    | none => alSet s.uncovered nm 0
    | some c => alSet s.uncovered nm (c - 1)
  if (alFind u1 nm).getD 0 < 0 then ({ s with uncovered := u1 }, some PErr.negativeUncovered)
  else
    let l1 := match alFind s.speciesLog nm with
      | none => alSet s.speciesLog nm (-1)
      | some c => alSet s.speciesLog nm (c - 1)
    ({ s with uncovered := u1, speciesLog := l1 }, none)

/-- `Polymer::UncoverBindingSite` (polymer.cpp:145-156): first sight
initialises `uncovered_[name]` to 1, otherwise increments; likewise for
`species_log_[name]`. -/
def UncoverBindingSite (s : PolymerState) (nm : String) : PolymerState :=
  let u1 := match alFind s.uncovered nm with
    | none => alSet s.uncovered nm 1
    | some c => alSet s.uncovered nm (c + 1)
  let l1 := match alFind s.speciesLog nm with
    | none => alSet s.speciesLog nm 1
    | some c => alSet s.speciesLog nm (c + 1)
  { s with uncovered := u1, speciesLog := l1 }

/-- First loop of `Polymer::Initialize` (polymer.cpp:26-30): for each site of
the query result, `CoverBindingSite(name)`, then `Cover()`, `SaveState()` on
the shared site. -/
def initCoverLoop (s : PolymerState) : List Nat → PolymerState × Option PErr
  | [] => (s, none)
  | j :: rest =>
    match s.bindingSites.get? j with
    | none => (s, some PErr.badIndex)
    | some p =>
      match CoverBindingSite s p.name with
      | (s1, some e) => (s1, some e)
      | (s1, none) =>
        initCoverLoop
          { s1 with bindingSites := s1.bindingSites.set j (promSave (promCover p)) } rest

/-- Second loop of `Polymer::Initialize` (polymer.cpp:34-38):
`UncoverBindingSite(name)`, then `Uncover()`, `SaveState()`. -/
def initUncoverLoop (s : PolymerState) : List Nat → PolymerState
  | [] => s
  | j :: rest =>
    match s.bindingSites.get? j with
    | none => s
    | some p =>
      let s1 := UncoverBindingSite s p.name
      initUncoverLoop
        { s1 with bindingSites := s1.bindingSites.set j (promSave (promUncover p)) } rest

/-- `Polymer::Initialize` (polymer.cpp:16-39).  Covers every promoter
overlapping `[mask_start, mask_stop]`; then the second query runs over
`(start_, mask_stop)` — the whole polymer — and uncovers every promoter it
returns (this is the range the source actually passes on line 33). -/
def Initialize (s : PolymerState) : PolymerState × Option PErr :=
  let maskStart := s.mask.start
  let maskStop := s.mask.stop
  let idxs1 := (List.range s.bindingSites.length).filter (fun j =>
    match s.bindingSites.get? j with
    | some p => siteOverlap maskStart maskStop p.start p.stop
    | none => false)
  match initCoverLoop s idxs1 with
  | (s1, some e) => (s1, some e)
  | (s1, none) =>
    let idxs2 := (List.range s1.bindingSites.length).filter (fun j =>
      match s1.bindingSites.get? j with
      | some p => siteOverlap s1.start maskStop p.start p.stop
      | none => false)
    (initUncoverLoop s1 idxs2, none)

/-- Result of `Polymer::Insert`: the state (also at the moment of a throw),
the error if any, and the insertion offset (`it - polymerases_.begin()`). -/
structure InsOut where
  st : PolymerState
  err : Option PErr
  pos : Nat
deriving DecidableEq, Repr

/-- `Polymer::Insert` (polymer.cpp:158-179).  `std::upper_bound` on the
start-sorted `polymerases_` is the first element whose start exceeds
`pol.start`; the same offset is used for `prop_list_`.  The unchecked read
`weights_[pol->stop() - start_ - 1]` is an error here when out of range. -/
def Polymer.Insert (s : PolymerState) (pol : Pol) : InsOut :=
  let k := (s.pols.takeWhile (fun b => !(pol.start < b.start))).length
  let pols2 := insAt k pol s.pols
  let widx := pol.stop - s.start - 1
  if widx < 0 || (s.weights.length : Int) ≤ widx then
    ⟨{ s with pols := pols2 }, some PErr.badIndex, k⟩
  else
    let w := s.weights.getD widx.toNat 0
    let ps := s.propSum + w * pol.speed
    let pl := insAt k (w * pol.speed) s.propList
    if pl.length = pols2.length then
      ⟨{ s with pols := pols2, propList := pl, propSum := ps }, none, k⟩
    else
      ⟨{ s with pols := pols2, propList := pl, propSum := ps }, some PErr.propListSize, k⟩

/-- Result of `Polymer::Terminate`: state, error, and the
`termination_signal_` payload `(index_, pol->name(), last_gene)` (emitted
before the erase). -/
structure TermOut where
  st : PolymerState
  err : Option PErr
  sig : Option (Int × String × String)
deriving DecidableEq, Repr

/-- `Polymer::Terminate` (polymer.cpp:115-125).  Locates `pol` by identity
(`std::find` on the shared pointers, modelled by `pid`), subtracts the cached
propensity from `prop_sum_`, emits `termination_signal_`, erases from both
parallel vectors at the found offset, then checks the sizes still agree.  An
absent `pol` makes the subsequent vector accesses out of range (UB in C++,
`polNotFound` here). -/
def Terminate (s : PolymerState) (pol : Pol) (lastGene : String) : TermOut :=
  let i := s.pols.findIdx (fun q => q.pid = pol.pid)
  if i < s.pols.length then
    if i < s.propList.length then
      let ps := s.propSum - s.propList.getD i 0
      let sig := (s.idx, pol.name, lastGene)
      let pols2 := delAt i s.pols
      let pl2 := delAt i s.propList
      if pl2.length = pols2.length then
        ⟨{ s with pols := pols2, propList := pl2, propSum := ps }, none, some sig⟩
      else
        ⟨{ s with pols := pols2, propList := pl2, propSum := ps },
          some PErr.propListSize, some sig⟩
    else ⟨s, some PErr.badIndex, none⟩
  else ⟨s, some PErr.polNotFound, none⟩

/-- `Polymer::CheckAhead` (polymer.cpp:250-261): cover every promoter
overlapping `[old_stop, new_stop]` whose start lies strictly before
`new_stop` (the `WasCovered` branch of the source is empty). -/
def CheckAhead (s : PolymerState) (oldStop newStop : Int) : PolymerState :=
  { s with bindingSites := s.bindingSites.map (fun p =>
      if siteOverlap oldStop newStop p.start p.stop && decide (p.start < newStop) then
        promCover p
      else p) }

/-- `Polymer::CheckBehind` (polymer.cpp:263-274): uncover every promoter
overlapping `[old_start, new_start]` whose stop lies strictly before
`new_start` (the `WasUncovered` branch of the source is empty).  Note the
source only queries `binding_sites_`; release sites are never touched. -/
def CheckBehind (s : PolymerState) (oldStart newStart : Int) : PolymerState :=
  { s with bindingSites := s.bindingSites.map (fun p =>
      if siteOverlap oldStart newStart p.start p.stop && decide (p.stop < newStart) then
        promUncover p
      else p) }

/-- `Polymer::ShiftMask` (polymer.cpp:106-113): if the mask is nonempty,
recede its start by one (Mask::Recede, modelled from the spec §3) and run
`CheckBehind(old_start, mask_.start())`. -/
def ShiftMask (s : PolymerState) : PolymerState :=
  if s.mask.start ≤ s.mask.stop then
    let oldStart := s.mask.start
    let s1 := { s with mask := { s.mask with start := s.mask.start + 1 } }
    CheckBehind s1 oldStart s1.mask.start
  else s

/-- Result of `Polymer::CheckMaskCollisions`. -/
structure CMCOut where
  st : PolymerState
  collision : Bool
  err : Option PErr
deriving DecidableEq, Repr

/-- `Polymer::CheckMaskCollisions` (polymer.cpp:302-318): when the mask is
still on the polymer and the polymerase reaches it, an overlap of more than
one position is fatal; a species the mask admits shifts the mask and the
move continues; otherwise the caller must move the polymerase back. -/
def CheckMaskCollisions (s : PolymerState) (pol : Pol) : CMCOut :=
  if s.mask.start ≤ s.stop && s.mask.start ≤ pol.stop then
    if pol.stop - s.mask.start > 0 then ⟨s, false, some PErr.invalidOverlapMask⟩
    else if maskCheckInteraction s.mask pol.name then ⟨ShiftMask s, false, none⟩
    else ⟨s, true, none⟩
  else ⟨s, false, none⟩

/-- `Polymer::CheckPolCollisions` (polymer.cpp:320-348): only the polymerase
one position ahead is checked; span overlap of more than one coordinate is
fatal. -/
def CheckPolCollisions (s : PolymerState) (i : Nat) : Except PErr Bool :=
  if s.pols.length ≤ i + 1 then Except.ok false
  else
    let a := s.pols.getD i polDflt
    let b := s.pols.getD (i + 1) polDflt
    if b.start ≤ a.stop && a.start ≤ b.stop then
      if b.start < a.stop then Except.error PErr.invalidOverlapPol
      else Except.ok true
    else Except.ok false

/-- Result of `Polymer::CheckTermination`: state, error, whether the
polymerase terminated, the number of `pol->move_signal_.Emit()` calls made by
the loop on polymer.cpp:289-291, the `termination_signal_` payload, and the
terminator that fired. -/
structure CTOut where
  st : PolymerState
  err : Option PErr
  terminated : Bool
  emits : Nat
  sig : Option (Int × String × String)
  succ : Option Terminator
deriving DecidableEq, Repr

/-- The loop body of `Polymer::CheckTermination` (polymer.cpp:279-298) over
the indices of the overlapping release sites.  `k` counts the
`Random::random()` draws consumed so far and `acc` the `move_signal_` emits
so far.  A failed draw marks the terminator readthrough and continues;
a successful draw emits `dist = stop − pol.stop + 1` times (a non-positive
`dist` loops zero times) and calls `Terminate`. -/
def ctLoop (pol : Pol) (us : Nat → Rat) (s : PolymerState) :
    List Nat → Nat → Nat → CTOut
  | [], _, acc => ⟨s, none, false, acc, none, none⟩
  | j :: rest, k, acc =>
    match s.releaseSites.get? j with
    | none => ⟨s, some PErr.badIndex, false, acc, none, none⟩
    | some t =>
      if termCheckInteraction t pol.name pol.readingFrame && !t.readthrough then
        if us k ≤ termEfficiency t pol.name then
          let acc2 := acc + (t.stop - pol.stop + 1).toNat
          let tr := Terminate s pol t.gene
          match tr.err with
          | some e => ⟨tr.st, some e, false, acc2, tr.sig, some t⟩
          | none => ⟨tr.st, none, true, acc2, tr.sig, some t⟩
        else
          ctLoop pol us
            { s with releaseSites := s.releaseSites.set j { t with readthrough := true } }
            rest (k + 1) acc
      else ctLoop pol us s rest (k + 1) acc

/-- `Polymer::CheckTermination` (polymer.cpp:276-300): run the loop over the
release sites overlapping the polymerase's span. -/
def CheckTermination (s : PolymerState) (pol : Pol) (us : Nat → Rat) : CTOut :=
  ctLoop pol us s
    ((List.range s.releaseSites.length).filter (fun j =>
      match s.releaseSites.get? j with
      | some t => siteOverlap pol.start pol.stop t.start t.stop
      | none => false)) 0 0

/-- Modelled from the spec (§4.4): `Polymerase::move()` advances both
coordinates by one (the accompanying `move_signal_` emission is counted by
the caller).  -/
def polStep (p : Pol) : Pol := { p with start := p.start + 1, stop := p.stop + 1 }

/-- Modelled from the spec (§4.4): `Polymerase::move_back()` retreats both
coordinates by one and does not emit. -/
def polBack (p : Pol) : Pol := { p with start := p.start - 1, stop := p.stop - 1 }

/-- Result of `Polymer::Move`: state, error, the number of `move_signal_`
emissions of the moved polymerase during the call (its own step plus any
termination walk-off), whether a collision rolled the step back, whether the
polymerase terminated, and the termination signal if any. -/
structure MoveOut where
  st : PolymerState
  err : Option PErr
  emits : Nat
  rolledBack : Bool
  terminated : Bool
  sig : Option (Int × String × String)
deriving DecidableEq, Repr

/-- `Polymer::Move` (polymer.cpp:201-248), with collision resolution in
source order: speculative step (which emits `move_signal_` once), polymerase
collision, mask collision, termination, `CheckBehind`/`CheckAhead`, and the
propensity update for the new position.  The weight-bounds test mirrors the
source's `(pol->stop() - start_ - 1) >= weights_.size()` (a signed-unsigned
comparison, so a negative index also throws). -/
def Move (s : PolymerState) (i : Nat) (us : Nat → Rat) : MoveOut :=
  if s.propList.length ≤ i then ⟨s, some PErr.badIndex, 0, false, false, none⟩
  else
    match s.pols.get? i with
    | none => ⟨s, some PErr.badIndex, 0, false, false, none⟩
    | some pol0 =>
      let oldStart := pol0.start
      let oldStop := pol0.stop
      let pol1 := polStep pol0
      let s1 := { s with pols := s.pols.set i pol1 }
      match CheckPolCollisions s1 i with
      | Except.error e => ⟨s1, some e, 1, false, false, none⟩
      | Except.ok true =>
        ⟨{ s1 with pols := s1.pols.set i (polBack pol1) }, none, 1, true, false, none⟩
      | Except.ok false =>
        let cm := CheckMaskCollisions s1 pol1
        match cm.err with
        | some e => ⟨cm.st, some e, 1, false, false, none⟩
        | none =>
          if cm.collision then
            ⟨{ cm.st with pols := cm.st.pols.set i (polBack pol1) }, none, 1, true,
              false, none⟩
          else
            let ct := CheckTermination cm.st pol1 us
            match ct.err with
            | some e => ⟨ct.st, some e, 1 + ct.emits, false, false, ct.sig⟩
            | none =>
              if ct.terminated then ⟨ct.st, none, 1 + ct.emits, false, true, ct.sig⟩
              else
                let s4 := CheckBehind ct.st oldStart pol1.start
                let s5 := CheckAhead s4 oldStop pol1.stop
                let widx := pol1.stop - s5.start - 1
                if widx < 0 || (s5.weights.length : Int) ≤ widx then
                  ⟨s5, some PErr.missingWeight, 1, false, false, none⟩
                else
                  let w := s5.weights.getD widx.toNat 0
                  let newSpeed := w * pol1.speed
                  let diff := newSpeed - s5.propList.getD i 0
                  ⟨{ s5 with
                      propSum := s5.propSum + diff
                      propList := s5.propList.set i newSpeed }, none, 1, false, false,
                    none⟩

/-- Result of `Polymer::Bind`: the state (unchanged when an error occurred
before any mutation), the polymerase after the call (the source mutates the
shared polymerase in place, also on the mask-overlap error path), the error
if any, and where `Insert` placed the polymerase. -/
structure BindOut where
  st : PolymerState
  pol : Pol
  err : Option PErr
  insPos : Nat
deriving DecidableEq, Repr

/-- `Polymer::Bind` (polymer.cpp:41-94).  Collects the free promoters named
`promoterName` in `[start_, mask_.start()]`, errs when none
(`noFreePromoter`); picks one uniformly (`Random::WeightedChoice`, oracle
`choice`); errs when it does not interact with the polymerase
(`noInteraction`); snaps the polymerase onto it; errs when the polymerase
would reach the mask (`maskOverlap`) — at that point the polymerase
coordinates are already updated; covers the site, saves its state, updates
the uncovered cache and inserts the polymerase.  The species-tracker
notification (polymer.cpp:89-93) touches only the external singleton and is
not part of the polymer state. -/
def Polymer.Bind (s : PolymerState) (pol : Pol) (promoterName : String) (choice : Nat) : BindOut :=
  let choices := (List.range s.bindingSites.length).filter (fun j =>
    match s.bindingSites.get? j with
    | some p =>
      siteOverlap s.start s.mask.start p.start p.stop && p.name == promoterName
        && !p.covered
    | none => false)
  if choices.length = 0 then ⟨s, pol, some PErr.noFreePromoter, 0⟩
  else
    let j := choices.getD (choice % choices.length) 0
    match s.bindingSites.get? j with
    | none => ⟨s, pol, some PErr.badIndex, 0⟩
    | some e =>
      if !e.interactions.contains pol.name then ⟨s, pol, some PErr.noInteraction, 0⟩
      else
        let pol1 := { pol with start := e.start, stop := e.start + pol.footprint - 1 }
        if s.mask.start ≤ pol1.stop then ⟨s, pol1, some PErr.maskOverlap, 0⟩
        else
          let s1 := { s with bindingSites := s.bindingSites.set j (promSave (promCover e)) }
          match CoverBindingSite s1 e.name with
          | (s2, some er) => ⟨s2, pol1, some er, 0⟩
          | (s2, none) =>
            let ins := Polymer.Insert s2 pol1
            ⟨ins.st, pol1, ins.err, ins.pos⟩

/-- The Genome members used by `Genome::Bind` / `Genome::BuildTranscript`:
the underlying polymer plus the transcript-template interval trees
(`transcript_rbs_`, `transcript_stop_sites_`, built by `AddGene`) and
`transcript_weights_`. -/
structure GenomeState where
  base : PolymerState
  transcriptRbs : List Promoter
  transcriptStopSites : List Terminator
  transcriptWeights : List Rat
deriving DecidableEq, Repr

/-- `Genome::BuildTranscript` (polymer.cpp:452-484): clone the template RBSes
and stop codons contained in `[start, stop]`, build a mask over
`[start, stop]` with an empty interaction map, and construct the Transcript.
The Transcript constructor (polymer.cpp:350-360) is passed the Genome's
`start_` and `stop_` — not the local `start`/`stop` — and then overrides the
mask, weights and site intervals with the arguments. -/
def BuildTranscript (g : GenomeState) (start stop : Int) : PolymerState :=
  let rbs := (g.transcriptRbs.filter
    (fun p => siteContained start stop p.start p.stop)).map promClone
  let stops := (g.transcriptStopSites.filter
    (fun t => siteContained start stop t.start t.stop)).map termClone
  { name := "rna"
    start := g.base.start
    stop := g.base.stop
    weights := g.transcriptWeights
    mask := { name := "mask", start := start, stop := stop, interactions := [] }
    bindingSites := rbs
    releaseSites := stops
    pols := []
    propList := []
    propSum := 0
    uncovered := []
    speciesLog := []
    idx := 0 }

/-- A genome together with the registry of transcripts it has emitted;
`move_signal_` slots stored in each polymerase refer into this registry. -/
structure Sim where
  g : GenomeState
  transcripts : List PolymerState
deriving DecidableEq, Repr

/-- One `move_signal_.Emit()` of a polymerase with the given slots: each
connected `Transcript::ShiftMask` runs, in connection order (mirrors
`Signal::emit`, event_signal.hpp:67-73, whose `std::map` iterates the
increasing connection ids). -/
def emitOnce (slots : List Nat) (ts : List PolymerState) : List PolymerState :=
  slots.foldl (fun acc j => modAt j ShiftMask acc) ts

/-- `n` successive `move_signal_.Emit()` calls. -/
def emitN : Nat → List Nat → List PolymerState → List PolymerState
  | 0, _, ts => ts
  | n + 1, slots, ts => emitN n slots (emitOnce slots ts)

/-- The `move_signal_` slots of polymerase `i`, empty when the index is out
of range. -/
def polSlots (s : PolymerState) (i : Nat) : List Nat :=
  match s.pols.get? i with
  | some p => p.slots
  | none => []

/-- Result of `Genome::Bind` at the simulation level. -/
structure SimBindOut where
  sim : Sim
  pol : Pol
  err : Option PErr
  newT : Option PolymerState
  sigT : List PolymerState
  tIdx : Nat
  insPos : Nat
deriving DecidableEq, Repr

/-- `Genome::Bind` (polymer.cpp:438-450): run `Polymer::Bind`, build a
transcript from the *end* of the polymerase to the genome's `stop_`, connect
`pol->move_signal_` to the transcript's `ShiftMask` (the new slot lands on
the polymerase object now stored in `polymerases_`), and emit
`transcript_signal_(transcript)`. -/
def SimBind (sim : Sim) (pol : Pol) (nm : String) (choice : Nat) : SimBindOut :=
  let b := Polymer.Bind sim.g.base pol nm choice
  match b.err with
  | some e =>
    ⟨{ sim with g := { sim.g with base := b.st } }, b.pol, some e, none, [], 0, b.insPos⟩
  | none =>
    let t := BuildTranscript sim.g b.pol.stop sim.g.base.stop
    let tIdx := sim.transcripts.length
    let base2 := { b.st with
      pols := modAt b.insPos (fun p => { p with slots := p.slots ++ [tIdx] }) b.st.pols }
    ⟨⟨{ sim.g with base := base2 }, sim.transcripts ++ [t]⟩, b.pol, none, some t, [t],
      tIdx, b.insPos⟩

/-- Result of `Polymer::Move` at the simulation level. -/
structure SimMoveOut where
  sim : Sim
  err : Option PErr
  emits : Nat
  rolledBack : Bool
  terminated : Bool
deriving DecidableEq, Repr

/-- A genome `Move` observed together with its effect on the transcript
registry: every `move_signal_.Emit()` of the moved polymerase (its step, plus
the walk-off loop of `CheckTermination`) runs the connected
`Transcript::ShiftMask` slots.  Transcript states and the genome state are
disjoint, so applying the emissions after the move is equivalent to the
source's synchronous interleaving. -/
def SimMove (sim : Sim) (i : Nat) (us : Nat → Rat) : SimMoveOut :=
  let slots := polSlots sim.g.base i
  let m := Move sim.g.base i us
  ⟨⟨{ sim.g with base := m.st }, emitN m.emits slots sim.transcripts⟩, m.err, m.emits,
    m.rolledBack, m.terminated⟩

/-- A polymer `[1,10]` whose mask `[5,10]` fully covers its single promoter
`p` at `[6,8]`. -/
def sC2 : PolymerState :=
  { name := "genome"
    start := 1
    stop := 10
    weights := List.replicate 10 (1 : Rat)
    mask := { name := "mask", start := 5, stop := 10, interactions := [] }
    bindingSites := [{ name := "p", start := 6, stop := 8, interactions := ["rnapol"],
                       covered := false, oldCovered := false, gene := "" }]
    releaseSites := []
    pols := []
    propList := []
    propSum := 0
    uncovered := []
    speciesLog := []
    idx := 0 }

/-- C2: `initialize()` and promoters under the mask.  The claim says a
promoter overlapping the initial mask ends covered, with `uncovered[name]`
left at its decremented value, and is *not* counted as uncovered.  The
source's second uncover query (polymer.cpp:33) runs over
`(start_, mask_stop)` — the whole polymer, although the adjacent comment
says "all unmasked sites" — so the masked promoter `p` of `sC2` is uncovered
again and ends with `uncovered[p] = 1` and its covered bit cleared. -/
theorem initialize_uncovers_masked_promoter :
    (Initialize sC2).2 = none ∧
    alFind (Initialize sC2).1.uncovered "p" = some 1 ∧
    ((Initialize sC2).1.bindingSites.getD 0 promDflt).covered = false := by
  decide

/-- A polymer with one polymerase `rnapol` at `[48,57]` and one terminator
`t1` at `[50,55]` of efficiency 0 (§8 scenario 5, with an efficiency at
which every draw fails). -/
def sC4 : PolymerState :=
  { name := "genome"
    start := 1
    stop := 100
    weights := List.replicate 100 (1 : Rat)
    mask := { name := "mask", start := 101, stop := 100, interactions := [] }
    bindingSites := []
    releaseSites := [{ name := "t1", start := 50, stop := 55,
                       efficiencies := [("rnapol", 0)], readthrough := false,
                       readingFrame := 0, gene := "geneX" }]
    pols := [{ pid := 1, name := "rnapol", footprint := 10, speed := 1, start := 48,
               stop := 57, readingFrame := 0, slots := [] }]
    propList := [1]
    propSum := 1
    uncovered := []
    speciesLog := []
    idx := 0 }

def polC4 : Pol :=
  { pid := 1, name := "rnapol", footprint := 10, speed := 1, start := 48, stop := 57,
    readingFrame := 0, slots := [] }

/-- C4: a failed stochastic attempt (`u = 1 > efficiency = 0`) does set the
terminator's readthrough flag, as the claim says — but the flag is never
cleared: `CheckBehind` (polymer.cpp:263-274) queries only `binding_sites_`
and never touches release sites, so after the polymerase has passed the
terminator (`site.stop = 55 < new_start = 60`) the flag is still set. -/
theorem readthrough_not_cleared_by_checkbehind :
    (CheckTermination sC4 polC4 (fun _ => 1)).terminated = false ∧
    (((CheckTermination sC4 polC4 (fun _ => 1)).st.releaseSites.getD 0
        termDflt).readthrough = true) ∧
    (((CheckBehind (CheckTermination sC4 polC4 (fun _ => 1)).st 48
        60).releaseSites.getD 0 termDflt).readthrough = true) := by
  decide

/-- C6: when the mask is still on the polymer (`mask_start ≤ stop_`) and the
polymerase has reached it (`pol.stop ≥ mask_start`), `CheckMaskCollisions`
resolves as the claim states: overlap of more than one position is the fatal
`InvalidOverlap`; a species the mask admits shifts the mask and the move
continues (`collision = false`); any other species must move back
(`collision = true`, state untouched); and when the overlap was at most one
position (`pol.stop ≤ mask_start`) the fatal branch is unreachable. -/
theorem mask_collision_resolution (s : PolymerState) (pol : Pol)
    (h1 : s.mask.start ≤ s.stop) (h2 : s.mask.start ≤ pol.stop) :
    (pol.stop - s.mask.start > 0 →
      (CheckMaskCollisions s pol).err = some PErr.invalidOverlapMask) ∧
    (pol.stop - s.mask.start ≤ 0 → maskCheckInteraction s.mask pol.name = true →
      CheckMaskCollisions s pol = ⟨ShiftMask s, false, none⟩) ∧
    (pol.stop - s.mask.start ≤ 0 → maskCheckInteraction s.mask pol.name = false →
      CheckMaskCollisions s pol = ⟨s, true, none⟩) ∧
    (pol.stop - s.mask.start ≤ 0 → (CheckMaskCollisions s pol).err = none) := by
  have hc : (s.mask.start ≤ s.stop && s.mask.start ≤ pol.stop) = true := by
    simp [h1, h2]
  refine ⟨fun hov => ?_, fun hle hadm => ?_, fun hle hadm => ?_, fun hle => ?_⟩
  · simp [CheckMaskCollisions, hc, hov]
  · simp [CheckMaskCollisions, hc, hadm, show ¬(pol.stop - s.mask.start > 0) by omega]
  · simp [CheckMaskCollisions, hc, hadm, show ¬(pol.stop - s.mask.start > 0) by omega]
  · by_cases hadm : maskCheckInteraction s.mask pol.name
    · simp [CheckMaskCollisions, hc, hadm, show ¬(pol.stop - s.mask.start > 0) by omega]
    · simp [CheckMaskCollisions, hc, hadm, show ¬(pol.stop - s.mask.start > 0) by omega]

/-- A polymer `[1,100]` with mask `[20,100]` that does not admit `rnapol`. -/
def sC6 : PolymerState :=
  { name := "genome"
    start := 1
    stop := 100
    weights := List.replicate 100 (1 : Rat)
    mask := { name := "mask", start := 20, stop := 100, interactions := [] }
    bindingSites := []
    releaseSites := []
    pols := []
    propList := []
    propSum := 0
    uncovered := []
    speciesLog := []
    idx := 0 }

def polC6 : Pol :=
  { pid := 1, name := "rnapol", footprint := 10, speed := 1, start := 11, stop := 20,
    readingFrame := 0, slots := [] }

/-- Witness for C6 at a polymerase touching the mask in exactly one
position, for a species the mask does not admit. -/
theorem mask_collision_resolution_witness :
    CheckMaskCollisions sC6 polC6 = ⟨sC6, true, none⟩ :=
  (mask_collision_resolution sC6 polC6 (by decide) (by decide)).2.2.1 (by decide)
    (by decide)

/-- C8: `Terminate` with the polymerase present (located by identity) and the
parallel arrays in step: no error, the cached propensity is subtracted from
`prop_sum_`, `termination_signal_(index_, pol.name, last_gene)` is emitted
(before the erase — the signal reads the state prior to it), both arrays lose
the entry at the found offset, and their lengths agree on exit. -/
theorem terminate_contract (s : PolymerState) (pol : Pol) (g : String)
    (hf : s.pols.findIdx (fun q => q.pid = pol.pid) < s.pols.length)
    (hlen : s.propList.length = s.pols.length) :
    (Terminate s pol g).err = none ∧
    (Terminate s pol g).sig = some (s.idx, pol.name, g) ∧
    (Terminate s pol g).st.pols = delAt (s.pols.findIdx (fun q => q.pid = pol.pid)) s.pols ∧
    (Terminate s pol g).st.propList =
      delAt (s.pols.findIdx (fun q => q.pid = pol.pid)) s.propList ∧
    (Terminate s pol g).st.propSum =
      s.propSum - s.propList.getD (s.pols.findIdx (fun q => q.pid = pol.pid)) 0 ∧
    (Terminate s pol g).st.propList.length = (Terminate s pol g).st.pols.length := by
  have hp : s.pols.findIdx (fun q => q.pid = pol.pid) < s.propList.length := by omega
  have hL : (delAt (s.pols.findIdx (fun q => q.pid = pol.pid)) s.propList).length
      = (delAt (s.pols.findIdx (fun q => q.pid = pol.pid)) s.pols).length := by
    rw [length_delAt _ _ hp, length_delAt _ _ hf, hlen]
  simp [Terminate, hf, hp, hL]

/-- A polymer carrying one polymerase, arrays in step. -/
def sC8 : PolymerState :=
  { name := "genome"
    start := 1
    stop := 100
    weights := List.replicate 100 (1 : Rat)
    mask := { name := "mask", start := 101, stop := 100, interactions := [] }
    bindingSites := []
    releaseSites := []
    pols := [{ pid := 7, name := "rnapol", footprint := 10, speed := 1, start := 48,
               stop := 57, readingFrame := 0, slots := [] }]
    propList := [1]
    propSum := 1
    uncovered := []
    speciesLog := []
    idx := 3 }

def polC8 : Pol :=
  { pid := 7, name := "rnapol", footprint := 10, speed := 1, start := 48, stop := 57,
    readingFrame := 0, slots := [] }

/-- Witness for C8: terminate the only polymerase of `sC8`. -/
theorem terminate_contract_witness :
    (Terminate sC8 polC8 "geneX").err = none ∧
    (Terminate sC8 polC8 "geneX").sig = some (sC8.idx, polC8.name, "geneX") ∧
    (Terminate sC8 polC8 "geneX").st.pols =
      delAt (sC8.pols.findIdx (fun q => q.pid = polC8.pid)) sC8.pols ∧
    (Terminate sC8 polC8 "geneX").st.propList =
      delAt (sC8.pols.findIdx (fun q => q.pid = polC8.pid)) sC8.propList ∧
    (Terminate sC8 polC8 "geneX").st.propSum =
      sC8.propSum - sC8.propList.getD (sC8.pols.findIdx (fun q => q.pid = polC8.pid)) 0 ∧
    (Terminate sC8 polC8 "geneX").st.propList.length =
      (Terminate sC8 polC8 "geneX").st.pols.length :=
  terminate_contract sC8 polC8 "geneX" (by decide) (by decide)

/-- Helper: through the `CheckTermination` loop, a successful termination at
terminator `t` accumulates exactly `(t.stop − pol.stop + 1).toNat` emits on
top of the accumulator (failed attempts and non-interacting sites add
none). -/
theorem ctLoop_emits (pol : Pol) (us : Nat → Rat) (t : Terminator) :
    ∀ (idxs : List Nat) (s : PolymerState) (k acc : Nat),
      (ctLoop pol us s idxs k acc).terminated = true →
      (ctLoop pol us s idxs k acc).succ = some t →
      (ctLoop pol us s idxs k acc).emits = acc + (t.stop - pol.stop + 1).toNat := by
  intro idxs
  induction idxs with
  | nil => intro s k acc h1 _; simp [ctLoop] at h1
  | cons j rest ih =>
    intro s k acc h1 h2
    revert h1 h2
    unfold ctLoop
    split
    · intro h1 _; simp at h1
    · split
      · split
        · dsimp only
          split
          · intro h1 _; simp at h1
          · intro _ h2
            simp only [CTOut.succ] at h2
            injection h2 with h2
            simp [h2]
        · intro h1 h2; exact ih _ _ _ h1 h2
      · intro h1 h2; exact ih _ _ _ h1 h2

/-- C7: a successful stochastic termination at terminator `t` fires
`pol.move_signal_` exactly `(t.stop − pol.stop + 1).toNat` times before
`Terminate` runs (polymer.cpp:288-291); when the polymerase is already past
the terminator (`pol.stop > t.stop`) the signed distance is non-positive and
the loop emits zero times. -/
theorem termination_walkoff_emits (s : PolymerState) (pol : Pol) (us : Nat → Rat)
    (t : Terminator)
    (h1 : (CheckTermination s pol us).terminated = true)
    (h2 : (CheckTermination s pol us).succ = some t) :
    (CheckTermination s pol us).emits = (t.stop - pol.stop + 1).toNat ∧
    (t.stop < pol.stop → (CheckTermination s pol us).emits = 0) := by
  have h := ctLoop_emits pol us t _ s 0 0 h1 h2
  constructor
  · simpa [CheckTermination] using h
  · intro hlt
    have h0 : (t.stop - pol.stop + 1).toNat = 0 := by
      rw [Int.toNat_eq_zero]; omega
    simpa [CheckTermination, h0] using h

def tC7 : Terminator :=
  { name := "t1", start := 50, stop := 55, efficiencies := [("rnapol", 1)],
    readthrough := false, readingFrame := 0, gene := "geneX" }

def polC7 : Pol :=
  { pid := 2, name := "rnapol", footprint := 10, speed := 1, start := 48, stop := 57,
    readingFrame := 0, slots := [] }

/-- A polymer carrying `polC7` over the always-firing terminator `tC7`;
the polymerase's stop (57) is already past the terminator's stop (55). -/
def sC7 : PolymerState :=
  { name := "genome"
    start := 1
    stop := 100
    weights := List.replicate 100 (1 : Rat)
    mask := { name := "mask", start := 101, stop := 100, interactions := [] }
    bindingSites := []
    releaseSites := [tC7]
    pols := [polC7]
    propList := [1]
    propSum := 1
    uncovered := []
    speciesLog := []
    idx := 0 }

/-- Witness for C7: the always-successful draw at `tC7` emits
`(55 − 57 + 1).toNat = 0` move signals. -/
theorem termination_walkoff_emits_witness :
    (CheckTermination sC7 polC7 (fun _ => 0)).emits = (tC7.stop - polC7.stop + 1).toNat ∧
    (tC7.stop < polC7.stop → (CheckTermination sC7 polC7 (fun _ => 0)).emits = 0) :=
  termination_walkoff_emits sC7 polC7 (fun _ => 0) tC7 (by decide) (by decide)

theorem getD_set_ne {α : Type} (i j : Nat) (a d : α) (l : List α) (h : i ≠ j) :
    (l.set i a).getD j d = l.getD j d := by
  induction l generalizing i j with
  | nil => cases i <;> rfl
  | cons x t ih => cases i with
    | zero => cases j with
      | zero => exact absurd rfl h
      | succ m => rfl
    | succ n => cases j with
      | zero => rfl
      | succ m =>
        simp only [List.set, List.getD_cons_succ]
        exact ih n m (by omega)

theorem getD_of_get? {α : Type} (i : Nat) (a d : α) (l : List α)
    (h : l.get? i = some a) : l.getD i d = a := by
  induction l generalizing i with
  | nil => simp at h
  | cons x t ih => cases i with
    | zero => simp_all [List.getD_cons_zero]
    | succ n =>
      simp only [List.get?] at h
      simp only [List.getD_cons_succ]
      exact ih n h

theorem polBack_polStep (p : Pol) : polBack (polStep p) = p := by
  cases p; simp [polBack, polStep]

/-- The two runtime-error results `CoverBindingSite` can produce. -/
theorem coverBindingSite_err (s : PolymerState) (nm : String) :
    (CoverBindingSite s nm).2 = none ∨
    (CoverBindingSite s nm).2 = some PErr.negativeUncovered := by
  unfold CoverBindingSite
  dsimp only
  split <;> simp

/-- The error results `Polymer::Insert` can produce. -/
theorem insert_err (s : PolymerState) (p : Pol) :
    (Polymer.Insert s p).err = none ∨ (Polymer.Insert s p).err = some PErr.badIndex ∨
    (Polymer.Insert s p).err = some PErr.propListSize := by
  unfold Polymer.Insert
  dsimp only
  split
  · simp
  · split <;> simp

/-- `CoverBindingSite` errors with `negativeUncovered` when it errs. -/
theorem coverBindingSite_err2 (s s2 : PolymerState) (nm : String) (er : PErr)
    (h : CoverBindingSite s nm = (s2, some er)) : er = PErr.negativeUncovered := by
  have hc := coverBindingSite_err s nm
  rw [h] at hc
  simpa using hc

/-- `Polymer::Insert` never raises the three recoverable bind errors. -/
theorem insert_err_ne (s : PolymerState) (p : Pol) (e : PErr)
    (h1 : e ≠ PErr.badIndex) (h2 : e ≠ PErr.propListSize) :
    (Polymer.Insert s p).err ≠ some e := by
  intro hc
  rcases insert_err s p with h | h | h <;> rw [hc] at h
  · simp at h
  · simp at h; exact h1 h
  · simp at h; exact h2 h

/-- A polymer `[1,100]` with mask starting at 15 and a free promoter `P` at
`[10,19]` admitting `rnapol`.  A footprint-10 polymerase snapped onto `P`
reaches coordinate 19 ≥ 15 and triggers the mask-overlap error. -/
def sC3 : PolymerState :=
  { name := "genome"
    start := 1
    stop := 100
    weights := List.replicate 100 (1 : Rat)
    mask := { name := "mask", start := 15, stop := 100, interactions := [] }
    bindingSites := [{ name := "P", start := 10, stop := 19,
                       interactions := ["rnapol"], covered := false, oldCovered := false,
                       gene := "" }]
    releaseSites := []
    pols := []
    propList := []
    propSum := 0
    uncovered := []
    speciesLog := []
    idx := 0 }

def polC3 : Pol :=
  { pid := 4, name := "rnapol", footprint := 10, speed := 1, start := 0, stop := 9,
    readingFrame := 0, slots := [] }

/-- C3 counterexample: on the `MaskOverlap` path the polymerase is *not*
left unchanged — `Polymer::Bind` sets `pol->start`/`pol->stop` onto the
promoter (polymer.cpp:71-72) before the mask check throws
(polymer.cpp:74-80).  Here the polymerase enters at `[0,9]` and leaves the
failed call at `[10,19]`. -/
theorem bind_maskoverlap_mutates_pol :
    (Polymer.Bind sC3 polC3 "P" 0).err = some PErr.maskOverlap ∧
    ¬((Polymer.Bind sC3 polC3 "P" 0).pol.start = polC3.start ∧
      (Polymer.Bind sC3 polC3 "P" 0).pol.stop = polC3.stop) := by
  decide

/-- C3 (amended): the `NoFreePromoter` and `NoInteraction` errors are raised
before any mutation — polymer state and polymerase are unchanged; the
`MaskOverlap` error is raised with the polymer state still unchanged but the
polymerase already snapped to the chosen promoter (`stop ≥ mask_start`,
`stop = start + footprint − 1`, all other fields unchanged). -/
theorem bind_error_paths (s : PolymerState) (pol : Pol) (nm : String) (choice : Nat) :
    ((Polymer.Bind s pol nm choice).err = some PErr.noFreePromoter →
      (Polymer.Bind s pol nm choice).st = s ∧ (Polymer.Bind s pol nm choice).pol = pol) ∧
    ((Polymer.Bind s pol nm choice).err = some PErr.noInteraction →
      (Polymer.Bind s pol nm choice).st = s ∧ (Polymer.Bind s pol nm choice).pol = pol) ∧
    ((Polymer.Bind s pol nm choice).err = some PErr.maskOverlap →
      (Polymer.Bind s pol nm choice).st = s ∧
      s.mask.start ≤ (Polymer.Bind s pol nm choice).pol.stop ∧
      (Polymer.Bind s pol nm choice).pol.stop =
        (Polymer.Bind s pol nm choice).pol.start + pol.footprint - 1 ∧
      (Polymer.Bind s pol nm choice).pol.pid = pol.pid ∧
      (Polymer.Bind s pol nm choice).pol.name = pol.name ∧
      (Polymer.Bind s pol nm choice).pol.speed = pol.speed ∧
      (Polymer.Bind s pol nm choice).pol.footprint = pol.footprint ∧
      (Polymer.Bind s pol nm choice).pol.readingFrame = pol.readingFrame ∧
      (Polymer.Bind s pol nm choice).pol.slots = pol.slots) := by
  unfold Polymer.Bind
  dsimp only
  split
  · simp
  · split
    · simp
    · split
      · simp
      · split
        · rename_i hmask
          exact ⟨by simp, by simp, fun _ => ⟨rfl, hmask, by simp, rfl, rfl, rfl, rfl,
            rfl, rfl⟩⟩
        · split
          · rename_i s2 er heq
            have her := coverBindingSite_err2 _ _ _ _ heq
            subst her
            simp
          · exact ⟨fun h => absurd h (insert_err_ne _ _ _ (by simp) (by simp)),
              fun h => absurd h (insert_err_ne _ _ _ (by simp) (by simp)),
              fun h => absurd h (insert_err_ne _ _ _ (by simp) (by simp))⟩

/-- Witness for the amended C3, on the mask-overlap path of `sC3`. -/
theorem bind_error_paths_witness :
    (Polymer.Bind sC3 polC3 "P" 0).st = sC3 ∧
    sC3.mask.start ≤ (Polymer.Bind sC3 polC3 "P" 0).pol.stop ∧
    (Polymer.Bind sC3 polC3 "P" 0).pol.stop =
      (Polymer.Bind sC3 polC3 "P" 0).pol.start + polC3.footprint - 1 ∧
    (Polymer.Bind sC3 polC3 "P" 0).pol.pid = polC3.pid ∧
    (Polymer.Bind sC3 polC3 "P" 0).pol.name = polC3.name ∧
    (Polymer.Bind sC3 polC3 "P" 0).pol.speed = polC3.speed ∧
    (Polymer.Bind sC3 polC3 "P" 0).pol.footprint = polC3.footprint ∧
    (Polymer.Bind sC3 polC3 "P" 0).pol.readingFrame = polC3.readingFrame ∧
    (Polymer.Bind sC3 polC3 "P" 0).pol.slots = polC3.slots :=
  (bind_error_paths sC3 polC3 "P" 0).2.2 (by decide)

/-- C5: when the speculatively advanced polymerase `i` touches polymerase
`i+1` in exactly one coordinate (its new stop equals the neighbour's start),
`Polymer::Move` rolls the step back and returns: the whole polymer state —
occupants, propensities, `prop_sum_`, the uncovered cache and every site —
is exactly as before the call. -/
theorem move_rollback_on_touch (s : PolymerState) (i : Nat) (us : Nat → Rat)
    (hpl : i < s.propList.length)
    (hi1 : i + 1 < s.pols.length)
    (hv0 : (s.pols.getD i polDflt).start ≤ (s.pols.getD i polDflt).stop)
    (hv1 : (s.pols.getD (i + 1) polDflt).start ≤ (s.pols.getD (i + 1) polDflt).stop)
    (ht : (s.pols.getD i polDflt).stop + 1 = (s.pols.getD (i + 1) polDflt).start) :
    Move s i us = ⟨s, none, 1, true, false, none⟩ := by
  have hi : i < s.pols.length := by omega
  cases hx : s.pols.get? i with
  | none =>
    exfalso
    rw [List.get?_eq_getElem?, List.getElem?_eq_none_iff] at hx
    omega
  | some p0 =>
    have hp0 : s.pols.getD i polDflt = p0 := getD_of_get? _ _ _ _ hx
    rw [hp0] at hv0 ht
    generalize hq : s.pols.getD (i + 1) polDflt = p1 at ht hv1
    have hstS : (polStep p0).stop = p0.stop + 1 := rfl
    have hstA : (polStep p0).start = p0.start + 1 := rfl
    have hga : (s.pols.set i (polStep p0)).getD i polDflt = polStep p0 :=
      getD_set_self _ _ _ _ hi
    have hgb : (s.pols.set i (polStep p0)).getD (i + 1) polDflt = p1 := by
      rw [getD_set_ne _ _ _ _ _ (by omega), hq]
    have hcpc : CheckPolCollisions { s with pols := s.pols.set i (polStep p0) } i
        = Except.ok true := by
      unfold CheckPolCollisions
      dsimp only
      rw [if_neg (by rw [List.length_set]; omega)]
      rw [hga, hgb]
      rw [if_pos ?hc1, if_neg ?hc2]
      case hc1 =>
        rw [Bool.and_eq_true]
        exact ⟨decide_eq_true (by omega), decide_eq_true (by omega)⟩
      case hc2 => omega
    unfold Move
    rw [if_neg (by omega), hx]
    dsimp only
    rw [hcpc]
    dsimp only
    have hst : (s.pols.set i (polStep p0)).set i (polBack (polStep p0)) = s.pols := by
      rw [set_set', polBack_polStep, ← hp0]
      exact set_getD_self _ _ _ hi
    rw [hst]

def polC5a : Pol :=
  { pid := 1, name := "rnapol", footprint := 10, speed := 1, start := 10, stop := 19,
    readingFrame := 0, slots := [] }

def polC5b : Pol :=
  { pid := 2, name := "rnapol", footprint := 10, speed := 1, start := 20, stop := 29,
    readingFrame := 0, slots := [] }

/-- Two polymerases at `[10,19]` and `[20,29]` (§8 scenario 4). -/
def sC5 : PolymerState :=
  { name := "genome"
    start := 1
    stop := 100
    weights := List.replicate 100 (1 : Rat)
    mask := { name := "mask", start := 101, stop := 100, interactions := [] }
    bindingSites := []
    releaseSites := []
    pols := [polC5a, polC5b]
    propList := [1, 1]
    propSum := 2
    uncovered := []
    speciesLog := []
    idx := 0 }

/-- Witness for C5: moving index 0 of `sC5` creates a one-coordinate touch
with index 1 and is rolled back without any state change. -/
theorem move_rollback_on_touch_witness :
    Move sC5 0 (fun _ => 0) = ⟨sC5, none, 1, true, false, none⟩ :=
  move_rollback_on_touch sC5 0 (fun _ => 0) (by decide) (by decide) (by decide)
    (by decide) (by decide)

/-- When `CheckMaskCollisions` reports a collision it has not touched the
state (the mask shift happens only on the admit path, which reports no
collision). -/
theorem cmc_collision_state (s : PolymerState) (pol : Pol)
    (h : (CheckMaskCollisions s pol).collision = true) :
    (CheckMaskCollisions s pol).st = s := by
  revert h
  unfold CheckMaskCollisions
  split
  · split
    · intro h; simp at h
    · split
      · intro h; simp at h
      · intro _; rfl
  · intro h; simp at h

/-- A `Move` that was rolled back by either collision kind leaves the polymer
state exactly as it was, reports no error, and has emitted `move_signal_`
exactly once (the speculative step emitted before the collision checks, and
`move_back` does not retract). -/
theorem move_rolledBack (s : PolymerState) (i : Nat) (us : Nat → Rat)
    (h : (Move s i us).rolledBack = true) :
    (Move s i us).st = s ∧ (Move s i us).emits = 1 ∧ (Move s i us).err = none := by
  revert h
  unfold Move
  split
  · intro h; simp at h
  · split
    · intro h; simp at h
    · rename_i pol0 hget
      have hlt : i < s.pols.length := by
        rw [List.get?_eq_getElem?] at hget
        by_cases hc : i < s.pols.length
        · exact hc
        · rw [List.getElem?_eq_none_iff.mpr (by omega)] at hget; simp at hget
      have hp0 : s.pols.getD i polDflt = pol0 := getD_of_get? _ _ _ _ hget
      have hst : (s.pols.set i (polStep pol0)).set i (polBack (polStep pol0))
          = s.pols := by
        rw [set_set', polBack_polStep, ← hp0]
        exact set_getD_self _ _ _ hlt
      dsimp only
      split
      · intro h; simp at h
      · intro _
        rw [hst]
        exact ⟨rfl, rfl, rfl⟩
      · split
        · intro h; simp at h
        · split
          · rename_i hcol
            intro _
            rw [cmc_collision_state _ _ hcol, hst]
            exact ⟨rfl, rfl, rfl⟩
          · split
            · intro h; simp at h
            · split
              · intro h; simp at h
              · split
                · intro h; simp at h
                · intro h; simp at h

/-- C10: when a `Move` is rolled back by a polymerase or mask collision, the
moved polymerase's `move_signal_` has nevertheless fired exactly once —
`Polymerase::Move` emits before the collision checks and `MoveBack` does not
retract — so every connected slot (each child transcript's `ShiftMask`) runs
even though the parent polymer state is fully restored. -/
theorem move_signal_runs_on_rollback (sim : Sim) (i : Nat) (us : Nat → Rat)
    (hrb : (SimMove sim i us).rolledBack = true) :
    (SimMove sim i us).sim.g.base = sim.g.base ∧
    (SimMove sim i us).emits = 1 ∧
    (SimMove sim i us).err = none ∧
    (SimMove sim i us).sim.transcripts
      = emitOnce (polSlots sim.g.base i) sim.transcripts ∧
    (∀ j, polSlots sim.g.base i = [j] →
      (SimMove sim i us).sim.transcripts = modAt j ShiftMask sim.transcripts) := by
  have hm : (Move sim.g.base i us).rolledBack = true := hrb
  obtain ⟨h1, h2, h3⟩ := move_rolledBack sim.g.base i us hm
  refine ⟨h1, h2, h3, ?_, ?_⟩
  · show emitN (Move sim.g.base i us).emits (polSlots sim.g.base i) sim.transcripts = _
    rw [h2]
    rfl
  · intro j hj
    show emitN (Move sim.g.base i us).emits (polSlots sim.g.base i) sim.transcripts = _
    rw [h2, hj]
    rfl

/-- A bare transcript `[1,100]` whose mask starts at 19, used as the
connected child in the C10 witness. -/
def trC10 : PolymerState :=
  { name := "rna"
    start := 1
    stop := 100
    weights := List.replicate 100 (1 : Rat)
    mask := { name := "mask", start := 19, stop := 100, interactions := [] }
    bindingSites := []
    releaseSites := []
    pols := []
    propList := []
    propSum := 0
    uncovered := []
    speciesLog := []
    idx := 0 }

def polC10a : Pol := { polC5a with slots := [0] }

def baseC10 : PolymerState := { sC5 with pols := [polC10a, polC5b] }

/-- The C5 collision scenario with the first polymerase wired to the
transcript `trC10` (slot 0 of the registry). -/
def simC10 : Sim :=
  { g :=
      { base := baseC10
        transcriptRbs := []
        transcriptStopSites := []
        transcriptWeights := List.replicate 100 (1 : Rat) }
    transcripts := [trC10] }

/-- Witness for C10: the rolled-back move of `simC10` still runs the child's
`ShiftMask` once. -/
theorem move_signal_runs_on_rollback_witness :
    (SimMove simC10 0 (fun _ => 0)).sim.g.base = simC10.g.base ∧
    (SimMove simC10 0 (fun _ => 0)).emits = 1 ∧
    (SimMove simC10 0 (fun _ => 0)).err = none ∧
    (SimMove simC10 0 (fun _ => 0)).sim.transcripts
      = emitOnce (polSlots simC10.g.base 0) simC10.transcripts ∧
    (∀ j, polSlots simC10.g.base 0 = [j] →
      (SimMove simC10 0 (fun _ => 0)).sim.transcripts
        = modAt j ShiftMask simC10.transcripts) :=
  move_signal_runs_on_rollback simC10 0 (fun _ => 0) (by decide)

theorem insAt_get_self {α : Type} (k : Nat) (a : α) (l : List α) (h : k ≤ l.length) :
    (insAt k a l).get? k = some a := by
  induction l generalizing k with
  | nil =>
    cases k with
    | zero => rfl
    | succ n => simp at h
  | cons x t ih =>
    cases k with
    | zero => rfl
    | succ n =>
      simp only [List.length_cons] at h
      simpa [insAt] using ih n (by omega)

theorem modAt_get_self {α : Type} (j : Nat) (f : α → α) (l : List α) :
    (modAt j f l).get? j = (l.get? j).map f := by
  induction l generalizing j with
  | nil => cases j <;> rfl
  | cons x t ih => cases j with
    | zero => rfl
    | succ n => simpa [modAt] using ih n

theorem takeWhile_length_le {α : Type} (p : α → Bool) (l : List α) :
    (l.takeWhile p).length ≤ l.length := by
  induction l with
  | nil => simp
  | cons x t ih =>
    rw [List.takeWhile_cons]
    cases p x
    · simp
    · simp; omega

/-- `Polymer::Insert` places the polymerase at the offset it reports. -/
theorem insert_pos (s : PolymerState) (p : Pol) :
    (Polymer.Insert s p).st.pols.get? (Polymer.Insert s p).pos = some p := by
  have hk : (s.pols.takeWhile fun b => !(p.start < b.start)).length ≤ s.pols.length :=
    takeWhile_length_le _ _
  unfold Polymer.Insert
  dsimp only
  split
  · exact insAt_get_self _ _ _ hk
  · split
    · exact insAt_get_self _ _ _ hk
    · exact insAt_get_self _ _ _ hk

/-- After a successful `Polymer::Bind`, the (updated) polymerase sits at the
reported insertion offset. -/
theorem bind_inserted (s : PolymerState) (pol : Pol) (nm : String) (choice : Nat)
    (h : (Polymer.Bind s pol nm choice).err = none) :
    (Polymer.Bind s pol nm choice).st.pols.get? (Polymer.Bind s pol nm choice).insPos
      = some (Polymer.Bind s pol nm choice).pol := by
  revert h
  unfold Polymer.Bind
  dsimp only
  split
  · intro h; simp at h
  · split
    · intro h; simp at h
    · split
      · intro h; simp at h
      · split
        · intro h; simp at h
        · split
          · intro h; simp at h
          · intro _
            exact insert_pos _ _

/-- The mask start advances by one under `ShiftMask` when the mask is
nonempty (`CheckBehind` does not touch the mask). -/
theorem shiftMask_start (s : PolymerState) (h : s.mask.start ≤ s.mask.stop) :
    (ShiftMask s).mask.start = s.mask.start + 1 := by
  unfold ShiftMask
  rw [if_pos h]
  rfl

/-- C9: a successful `Genome::Bind` constructs a transcript for the subrange
`[pol.stop, stop_]`: exactly the template RBSes and stop codons fully
contained in that range are cloned in; the Transcript constructor receives
the Genome's `(start_, stop_)` (so the transcript spans genome coordinates)
while its mask covers `[pol.stop, stop_]`; `transcript_signal_` fires with
the new transcript; and the polymerase's `move_signal_` gains the
transcript's `ShiftMask` slot, so one parent step recedes the child mask by
one position. -/
theorem genome_bind_transcript (sim : Sim) (pol : Pol) (nm : String) (choice : Nat)
    (hok : (SimBind sim pol nm choice).err = none) :
    ∃ t, (SimBind sim pol nm choice).newT = some t ∧
      t.bindingSites = (sim.g.transcriptRbs.filter (fun p =>
        siteContained (SimBind sim pol nm choice).pol.stop sim.g.base.stop
          p.start p.stop)).map promClone ∧
      t.releaseSites = (sim.g.transcriptStopSites.filter (fun q =>
        siteContained (SimBind sim pol nm choice).pol.stop sim.g.base.stop
          q.start q.stop)).map termClone ∧
      t.start = sim.g.base.start ∧
      t.stop = sim.g.base.stop ∧
      t.mask.start = (SimBind sim pol nm choice).pol.stop ∧
      t.mask.stop = sim.g.base.stop ∧
      t.weights = sim.g.transcriptWeights ∧
      (SimBind sim pol nm choice).sigT = [t] ∧
      (SimBind sim pol nm choice).tIdx = sim.transcripts.length ∧
      (SimBind sim pol nm choice).sim.transcripts = sim.transcripts ++ [t] ∧
      (∃ q, (SimBind sim pol nm choice).sim.g.base.pols.get?
          (SimBind sim pol nm choice).insPos = some q ∧
        q.slots = (SimBind sim pol nm choice).pol.slots
          ++ [(SimBind sim pol nm choice).tIdx]) ∧
      ((SimBind sim pol nm choice).pol.stop ≤ sim.g.base.stop →
        (ShiftMask t).mask.start = t.mask.start + 1) := by
  have hbe : (Polymer.Bind sim.g.base pol nm choice).err = none := by
    revert hok
    unfold SimBind
    dsimp only
    cases (Polymer.Bind sim.g.base pol nm choice).err with
    | none => intro _; rfl
    | some e => intro h; exact h
  have hins := bind_inserted sim.g.base pol nm choice hbe
  revert hok
  unfold SimBind
  dsimp only
  rw [hbe]
  intro _
  refine ⟨BuildTranscript sim.g (Polymer.Bind sim.g.base pol nm choice).pol.stop
    sim.g.base.stop, rfl, rfl, rfl, rfl, rfl, rfl, rfl, rfl, rfl, rfl, rfl, ?_, ?_⟩
  · refine ⟨{ (Polymer.Bind sim.g.base pol nm choice).pol with
        slots := (Polymer.Bind sim.g.base pol nm choice).pol.slots
          ++ [sim.transcripts.length] }, ?_, rfl⟩
    show (modAt (Polymer.Bind sim.g.base pol nm choice).insPos _
        (Polymer.Bind sim.g.base pol nm choice).st.pols).get?
        (Polymer.Bind sim.g.base pol nm choice).insPos = _
    rw [modAt_get_self, hins]
    rfl
  · intro hstop
    exact shiftMask_start _ hstop

def rbsC9 : Promoter :=
  { name := "g_rbs", start := 25, stop := 29, interactions := ["ribosome"],
    covered := false, oldCovered := false, gene := "g" }

def stopC9 : Terminator :=
  { name := "stop_codon", start := 59, stop := 60, efficiencies := [("ribosome", 1)],
    readthrough := false, readingFrame := 0, gene := "g" }

def baseC9 : PolymerState :=
  { name := "genome"
    start := 1
    stop := 100
    weights := List.replicate 100 (1 : Rat)
    mask := { name := "mask", start := 101, stop := 100, interactions := [] }
    bindingSites := [{ name := "P", start := 10, stop := 19,
                       interactions := ["rnapol"], covered := false, oldCovered := false,
                       gene := "" }]
    releaseSites := []
    pols := []
    propList := []
    propSum := 0
    uncovered := []
    speciesLog := []
    idx := 0 }

/-- A genome with one free promoter and one gene template (§8 scenario 6). -/
def simC9 : Sim :=
  { g :=
      { base := baseC9
        transcriptRbs := [rbsC9]
        transcriptStopSites := [stopC9]
        transcriptWeights := List.replicate 100 (1 : Rat) }
    transcripts := [] }

def polC9 : Pol :=
  { pid := 9, name := "rnapol", footprint := 10, speed := 1, start := 0, stop := 0,
    readingFrame := 0, slots := [] }

/-- Witness for C9: binding `polC9` on the promoter of `simC9`. -/
theorem genome_bind_transcript_witness :
    ∃ t, (SimBind simC9 polC9 "P" 0).newT = some t ∧
      t.bindingSites = (simC9.g.transcriptRbs.filter (fun p =>
        siteContained (SimBind simC9 polC9 "P" 0).pol.stop simC9.g.base.stop
          p.start p.stop)).map promClone ∧
      t.releaseSites = (simC9.g.transcriptStopSites.filter (fun q =>
        siteContained (SimBind simC9 polC9 "P" 0).pol.stop simC9.g.base.stop
          q.start q.stop)).map termClone ∧
      t.start = simC9.g.base.start ∧
      t.stop = simC9.g.base.stop ∧
      t.mask.start = (SimBind simC9 polC9 "P" 0).pol.stop ∧
      t.mask.stop = simC9.g.base.stop ∧
      t.weights = simC9.g.transcriptWeights ∧
      (SimBind simC9 polC9 "P" 0).sigT = [t] ∧
      (SimBind simC9 polC9 "P" 0).tIdx = simC9.transcripts.length ∧
      (SimBind simC9 polC9 "P" 0).sim.transcripts = simC9.transcripts ++ [t] ∧
      (∃ q, (SimBind simC9 polC9 "P" 0).sim.g.base.pols.get?
          (SimBind simC9 polC9 "P" 0).insPos = some q ∧
        q.slots = (SimBind simC9 polC9 "P" 0).pol.slots
          ++ [(SimBind simC9 polC9 "P" 0).tIdx]) ∧
      ((SimBind simC9 polC9 "P" 0).pol.stop ≤ simC9.g.base.stop →
        (ShiftMask t).mask.start = t.mask.start + 1) :=
  genome_bind_transcript simC9 polC9 "P" 0 (by decide)

/-- The cached propensity of a polymerase: the weight at `stop − start_ − 1`
(the source's off-by-one lookup, polymer.cpp:172 and 243) times its speed. -/
def propOf (start : Int) (ws : List Rat) (p : Pol) : Rat :=
  ws.getD (p.stop - start - 1).toNat 0 * p.speed

/-- The propensity lookup index of `p` is inside the weights vector. -/
def WeightIdxOk (start : Int) (ws : List Rat) (p : Pol) : Prop :=
  0 ≤ p.stop - start - 1 ∧ p.stop - start - 1 < (ws.length : Int)

instance (start : Int) (ws : List Rat) (p : Pol) : Decidable (WeightIdxOk start ws p) :=
  inferInstanceAs (Decidable (_ ∧ _))

/-- C1's invariant: `prop_list_` is the pointwise propensity of
`polymerases_` (same length, and entry `i` equals
`weights_[stop − start_ − 1] · speed`), `prop_sum_` is its exact sum, and
every lookup index is in range. -/
def PropInvariant (s : PolymerState) : Prop :=
  s.propList = s.pols.map (propOf s.start s.weights) ∧
  s.propSum = s.propList.sum ∧
  ∀ p ∈ s.pols, WeightIdxOk s.start s.weights p

instance (s : PolymerState) : Decidable (PropInvariant s) :=
  inferInstanceAs (Decidable (_ ∧ _ ∧ _))

theorem mem_insAt {α : Type} (k : Nat) (a p : α) (l : List α)
    (h : p ∈ insAt k a l) : p = a ∨ p ∈ l := by
  induction l generalizing k with
  | nil =>
    cases k with
    | zero => simpa [insAt] using h
    | succ n => simpa [insAt] using h
  | cons x t ih =>
    cases k with
    | zero => simpa [insAt] using h
    | succ n =>
      simp only [insAt, List.mem_cons] at h
      rcases h with h | h
      · exact Or.inr (by simp [h])
      · rcases ih n h with h2 | h2
        · exact Or.inl h2
        · exact Or.inr (by simp [h2])

theorem mem_delAt {α : Type} (i : Nat) (p : α) (l : List α)
    (h : p ∈ delAt i l) : p ∈ l := by
  induction l generalizing i with
  | nil => simp [delAt] at h
  | cons x t ih =>
    cases i with
    | zero => exact List.mem_cons_of_mem _ h
    | succ n =>
      simp only [delAt, List.mem_cons] at h
      rcases h with h | h
      · simp [h]
      · exact List.mem_cons_of_mem _ (ih n h)

theorem mem_set {α : Type} (i : Nat) (a p : α) (l : List α)
    (h : p ∈ l.set i a) : p = a ∨ p ∈ l := by
  induction l generalizing i with
  | nil => simp at h
  | cons x t ih =>
    cases i with
    | zero =>
      simp only [List.set, List.mem_cons] at h
      rcases h with h | h
      · exact Or.inl h
      · exact Or.inr (List.mem_cons_of_mem _ h)
    | succ n =>
      simp only [List.set, List.mem_cons] at h
      rcases h with h | h
      · exact Or.inr (by simp [h])
      · rcases ih n h with h2 | h2
        · exact Or.inl h2
        · exact Or.inr (List.mem_cons_of_mem _ h2)

theorem lt_of_get? {α : Type} (i : Nat) (a : α) (l : List α)
    (h : l.get? i = some a) : i < l.length := by
  rw [List.get?_eq_getElem?] at h
  by_cases hc : i < l.length
  · exact hc
  · rw [List.getElem?_eq_none_iff.mpr (by omega)] at h; simp at h

theorem mem_of_get? {α : Type} (i : Nat) (a : α) (l : List α)
    (h : l.get? i = some a) : a ∈ l := by
  induction l generalizing i with
  | nil => simp at h
  | cons x t ih =>
    cases i with
    | zero => simp at h; simp [h]
    | succ n =>
      simp only [List.get?] at h
      exact List.mem_cons_of_mem _ (ih n h)

theorem set_get?_self {α : Type} (i : Nat) (a : α) (l : List α) (h : i < l.length) :
    (l.set i a).get? i = some a := by
  induction l generalizing i with
  | nil => simp at h
  | cons x t ih =>
    cases i with
    | zero => rfl
    | succ n =>
      simp only [List.length_cons] at h
      simpa [List.set] using ih n (by omega)

/-- In a pid-nodup list, `std::find` by identity locates exactly the index
the polymerase sits at. -/
theorem findIdx_pid (l : List Pol) (i : Nat) (pol : Pol)
    (hnd : (l.map Pol.pid).Nodup) (hget : l.get? i = some pol) :
    l.findIdx (fun q => q.pid = pol.pid) = i := by
  induction l generalizing i with
  | nil => simp at hget
  | cons x t ih =>
    rw [List.map_cons, List.nodup_cons] at hnd
    cases i with
    | zero =>
      simp only [List.get?] at hget
      injection hget with hget
      subst hget
      simp [List.findIdx_cons]
    | succ n =>
      simp only [List.get?] at hget
      have hne : x.pid ≠ pol.pid := by
        intro hx
        exact hnd.1 (by
          rw [hx]
          exact List.mem_map_of_mem Pol.pid (mem_of_get? _ _ _ hget))
      rw [List.findIdx_cons]
      simp only [hne, decide_eq_true_eq, if_neg]
      rw [cond_eq_if, if_neg (by simp [hne])]
      rw [ih n hnd.2 hget]

/-- `PropInvariant` disturbed only at index `i`, whose propensity entry holds
the stale value `v`: the shape of the state between the speculative step of
`Move` and the re-synchronisation (or erasure) of entry `i`. -/
def InvExcept (s : PolymerState) (i : Nat) (v : Rat) : Prop :=
  s.propList = (s.pols.map (propOf s.start s.weights)).set i v ∧
  s.propSum = s.propList.sum ∧
  ∀ p ∈ delAt i s.pols, WeightIdxOk s.start s.weights p

/-- `Terminate` called on the polymerase at the disturbed index restores the
full invariant: both parallel entries at `i` are erased together. -/
theorem terminate_at_inv (s : PolymerState) (pol : Pol) (g : String) (i : Nat) (v : Rat)
    (hie : InvExcept s i v)
    (hnd : (s.pols.map Pol.pid).Nodup)
    (hget : s.pols.get? i = some pol) :
    (Terminate s pol g).err = none ∧ PropInvariant (Terminate s pol g).st := by
  have hi : i < s.pols.length := lt_of_get? _ _ _ hget
  have hfind : s.pols.findIdx (fun q => q.pid = pol.pid) = i := findIdx_pid _ _ _ hnd hget
  have hlen : s.propList.length = s.pols.length := by
    rw [hie.1, List.length_set, List.length_map]
  have hipl : i < s.propList.length := by omega
  unfold Terminate
  rw [hfind]
  rw [if_pos hi, if_pos hipl]
  rw [if_pos (by rw [length_delAt _ _ hipl, length_delAt _ _ hi, hlen])]
  refine ⟨rfl, ?_, ?_, ?_⟩
  · show delAt i s.propList = (delAt i s.pols).map (propOf s.start s.weights)
    rw [hie.1, delAt_set, map_delAt]
  · show s.propSum - s.propList.getD i 0 = (delAt i s.propList).sum
    rw [sum_delAt _ _ hipl, hie.2.1]
  · intro p hp
    exact hie.2.2 p hp

/-- C1 auxiliary: `Polymer::Insert` preserves the propensity invariant. -/
theorem insert_inv (s : PolymerState) (pol : Pol) (hinv : PropInvariant s)
    (hok : (Polymer.Insert s pol).err = none) : PropInvariant (Polymer.Insert s pol).st := by
  revert hok
  unfold Polymer.Insert
  dsimp only
  split
  · intro h; simp at h
  · rename_i hguard
    split
    · intro _
      rename_i hlen
      refine ⟨?_, ?_, ?_⟩
      · show insAt _ _ s.propList = (insAt _ pol s.pols).map (propOf s.start s.weights)
        rw [map_insAt, hinv.1]
        rfl
      · show s.propSum + _ = (insAt _ _ s.propList).sum
        rw [sum_insAt, hinv.2.1]
      · intro p hp
        show WeightIdxOk s.start s.weights p
        rcases mem_insAt _ _ _ _ hp with h | h
        · subst h
          simp only [Bool.or_eq_true, decide_eq_true_eq, not_or] at hguard
          exact ⟨by omega, by omega⟩
        · exact hinv.2.2 p h
    · intro h; simp at h

/-- C1 auxiliary: `Polymer::Terminate` preserves the propensity invariant. -/
theorem terminate_inv (s : PolymerState) (pol : Pol) (g : String)
    (hinv : PropInvariant s) (hok : (Terminate s pol g).err = none) :
    PropInvariant (Terminate s pol g).st := by
  revert hok
  unfold Terminate
  dsimp only
  split
  · rename_i hi
    split
    · rename_i hipl
      split
      · intro _
        refine ⟨?_, ?_, ?_⟩
        · show delAt _ s.propList = (delAt _ s.pols).map (propOf s.start s.weights)
          rw [hinv.1, map_delAt]
        · show s.propSum - s.propList.getD _ 0 = (delAt _ s.propList).sum
          rw [sum_delAt _ _ hipl, hinv.2.1]
        · intro p hp
          exact hinv.2.2 p (mem_delAt _ _ _ hp)
      · intro h; simp at h
    · intro h; simp at h
  · intro h; simp at h

theorem getD_map {α β : Type} (f : α → β) (i : Nat) (d : α) (l : List α) :
    (l.map f).getD i (f d) = f (l.getD i d) := by
  induction l generalizing i with
  | nil => cases i <;> rfl
  | cons x t ih => cases i with
    | zero => rfl
    | succ n =>
      simp only [List.map_cons, List.getD_cons_succ]
      exact ih n

/-- `ShiftMask` touches only the mask and the binding sites. -/
theorem shiftMask_fields (s : PolymerState) :
    (ShiftMask s).pols = s.pols ∧ (ShiftMask s).propList = s.propList ∧
    (ShiftMask s).propSum = s.propSum ∧ (ShiftMask s).start = s.start ∧
    (ShiftMask s).weights = s.weights := by
  unfold ShiftMask
  split
  · exact ⟨rfl, rfl, rfl, rfl, rfl⟩
  · exact ⟨rfl, rfl, rfl, rfl, rfl⟩

/-- `CheckMaskCollisions` touches only the mask and the binding sites. -/
theorem cmc_fields (s : PolymerState) (pol : Pol) :
    (CheckMaskCollisions s pol).st.pols = s.pols ∧
    (CheckMaskCollisions s pol).st.propList = s.propList ∧
    (CheckMaskCollisions s pol).st.propSum = s.propSum ∧
    (CheckMaskCollisions s pol).st.start = s.start ∧
    (CheckMaskCollisions s pol).st.weights = s.weights := by
  unfold CheckMaskCollisions
  split
  · split
    · exact ⟨rfl, rfl, rfl, rfl, rfl⟩
    · split
      · exact shiftMask_fields s
      · exact ⟨rfl, rfl, rfl, rfl, rfl⟩
  · exact ⟨rfl, rfl, rfl, rfl, rfl⟩

/-- Through the `CheckTermination` loop: a termination restores the full
invariant (the disturbed entry is erased from both arrays); otherwise only
release sites changed. -/
theorem ctLoop_inv (pol : Pol) (us : Nat → Rat) (i : Nat) (v : Rat) :
    ∀ (idxs : List Nat) (s : PolymerState) (k acc : Nat),
      InvExcept s i v →
      (s.pols.map Pol.pid).Nodup →
      s.pols.get? i = some pol →
      (ctLoop pol us s idxs k acc).err = none →
      ((ctLoop pol us s idxs k acc).terminated = true →
        PropInvariant (ctLoop pol us s idxs k acc).st) ∧
      ((ctLoop pol us s idxs k acc).terminated = false →
        (ctLoop pol us s idxs k acc).st.pols = s.pols ∧
        (ctLoop pol us s idxs k acc).st.propList = s.propList ∧
        (ctLoop pol us s idxs k acc).st.propSum = s.propSum ∧
        (ctLoop pol us s idxs k acc).st.start = s.start ∧
        (ctLoop pol us s idxs k acc).st.weights = s.weights) := by
  intro idxs
  induction idxs with
  | nil =>
    intro s k acc _ _ _ _
    exact ⟨fun ht => by simp [ctLoop] at ht, fun _ => ⟨rfl, rfl, rfl, rfl, rfl⟩⟩
  | cons j rest ih =>
    intro s k acc hie hnd hget hok
    revert hok
    unfold ctLoop
    split
    · intro h; simp at h
    · rename_i t hgt
      split
      · split
        · dsimp only
          split
          · intro h; simp at h
          · intro _
            have h2 := terminate_at_inv s pol t.gene i v hie hnd hget
            exact ⟨fun _ => h2.2, fun hf => by simp at hf⟩
        · intro hok
          exact ih _ (k + 1) acc hie hnd hget hok
      · intro hok
        exact ih s (k + 1) acc hie hnd hget hok

/-- `ctLoop_inv` at the `CheckTermination` entry point. -/
theorem checkTermination_inv (s : PolymerState) (pol : Pol) (us : Nat → Rat)
    (i : Nat) (v : Rat)
    (hie : InvExcept s i v) (hnd : (s.pols.map Pol.pid).Nodup)
    (hget : s.pols.get? i = some pol)
    (hok : (CheckTermination s pol us).err = none) :
    ((CheckTermination s pol us).terminated = true →
      PropInvariant (CheckTermination s pol us).st) ∧
    ((CheckTermination s pol us).terminated = false →
      (CheckTermination s pol us).st.pols = s.pols ∧
      (CheckTermination s pol us).st.propList = s.propList ∧
      (CheckTermination s pol us).st.propSum = s.propSum ∧
      (CheckTermination s pol us).st.start = s.start ∧
      (CheckTermination s pol us).st.weights = s.weights) := by
  unfold CheckTermination at hok ⊢
  exact ctLoop_inv pol us i v _ s 0 0 hie hnd hget hok

/-- The propensity update at the end of a successful `Move` restores the full
invariant, given the polymer fields carried unchanged through the collision
and site bookkeeping phases. -/
theorem final_update_inv (s0 s5 : PolymerState) (i : Nat) (pol1 : Pol)
    (hinv : PropInvariant s0)
    (hipll : i < s0.propList.length)
    (hpols : s5.pols = s0.pols.set i pol1)
    (hpl : s5.propList = s0.propList)
    (hps : s5.propSum = s0.propSum)
    (hstart : s5.start = s0.start)
    (hw : s5.weights = s0.weights)
    (hb1 : 0 ≤ pol1.stop - s5.start - 1)
    (hb2 : pol1.stop - s5.start - 1 < (s5.weights.length : Int)) :
    PropInvariant { s5 with
      propSum := s5.propSum
        + (s5.weights.getD (pol1.stop - s5.start - 1).toNat 0 * pol1.speed
          - s5.propList.getD i 0)
      propList := s5.propList.set i
        (s5.weights.getD (pol1.stop - s5.start - 1).toNat 0 * pol1.speed) } := by
  rw [hstart] at hb1
  rw [hstart, hw] at hb2
  refine ⟨?_, ?_, ?_⟩
  · show s5.propList.set i (s5.weights.getD (pol1.stop - s5.start - 1).toNat 0
      * pol1.speed) = s5.pols.map (propOf s5.start s5.weights)
    rw [hpols, hpl, hstart, hw, map_set', ← hinv.1]
    rfl
  · show s5.propSum + (s5.weights.getD (pol1.stop - s5.start - 1).toNat 0 * pol1.speed
      - s5.propList.getD i 0)
      = (s5.propList.set i (s5.weights.getD (pol1.stop - s5.start - 1).toNat 0
        * pol1.speed)).sum
    rw [hpl, hps, hstart, hw, hinv.2.1, sum_set _ _ _ hipll]
    ring
  · intro p hp
    show WeightIdxOk s5.start s5.weights p
    rw [hstart, hw]
    rw [hpols] at hp
    rcases mem_set _ _ _ _ hp with h | h
    · subst h
      exact ⟨hb1, hb2⟩
    · exact hinv.2.2 p h

set_option maxHeartbeats 2000000 in
/-- C1 auxiliary: `Polymer::Move` preserves the propensity invariant on
every non-throwing path (rollbacks restore the state, a termination erases
both parallel entries, a completed step re-synchronises entry `i`). -/
theorem move_inv (s : PolymerState) (i : Nat) (us : Nat → Rat)
    (hinv : PropInvariant s) (hnd : (s.pols.map Pol.pid).Nodup)
    (hok : (Move s i us).err = none) : PropInvariant (Move s i us).st := by
  revert hok
  unfold Move
  split
  · intro h; simp at h
  · rename_i hpl1
    split
    · intro h; simp at h
    · rename_i pol0 hget
      have hipll : i < s.propList.length := by omega
      have hi : i < s.pols.length := lt_of_get? _ _ _ hget
      have hp0 : s.pols.getD i polDflt = pol0 := getD_of_get? _ _ _ _ hget
      have hst : (s.pols.set i (polStep pol0)).set i (polBack (polStep pol0))
          = s.pols := by
        rw [set_set', polBack_polStep, ← hp0]
        exact set_getD_self _ _ _ hi
      have hndset : ((s.pols.set i (polStep pol0)).map Pol.pid).Nodup := by
        rw [map_set']
        have h1 : (polStep pol0).pid = (s.pols.map Pol.pid).getD i polDflt.pid := by
          rw [getD_map, hp0]
          rfl
        rw [h1, set_getD_self _ _ _ (by rw [List.length_map]; exact hi)]
        exact hnd
      have hgetset : (s.pols.set i (polStep pol0)).get? i = some (polStep pol0) :=
        set_get?_self _ _ _ hi
      have hie1 : InvExcept { s with pols := s.pols.set i (polStep pol0) } i
          (s.propList.getD i 0) := by
        refine ⟨?_, hinv.2.1, ?_⟩
        · show s.propList = ((s.pols.set i (polStep pol0)).map
            (propOf s.start s.weights)).set i (s.propList.getD i 0)
          rw [map_set', set_set', hinv.1]
          rw [show ((s.pols.map (propOf s.start s.weights)).getD i 0)
              = (s.pols.map (propOf s.start s.weights)).getD i 0 from rfl]
          rw [set_getD_self _ _ _ (by rw [List.length_map]; exact hi)]
        · intro p hp
          show WeightIdxOk s.start s.weights p
          rw [delAt_set] at hp
          exact hinv.2.2 p (mem_delAt _ _ _ hp)
      dsimp only
      split
      · intro h; simp at h
      · intro _
        rw [hst]
        exact hinv
      · split
        · intro h; simp at h
        · split
          · rename_i hcol
            intro _
            rw [cmc_collision_state _ _ hcol, hst]
            exact hinv
          · split
            · intro h; simp at h
            · rename_i hcterr
              obtain ⟨hcm1, hcm2, hcm3, hcm4, hcm5⟩ :=
                cmc_fields { s with pols := s.pols.set i (polStep pol0) } (polStep pol0)
              have hiecm : InvExcept (CheckMaskCollisions
                  { s with pols := s.pols.set i (polStep pol0) } (polStep pol0)).st i
                  (s.propList.getD i 0) := by
                refine ⟨?_, ?_, ?_⟩
                · rw [hcm1, hcm2, hcm4, hcm5]
                  exact hie1.1
                · rw [hcm2, hcm3]
                  exact hie1.2.1
                · intro p hp
                  show WeightIdxOk _ _ p
                  rw [hcm4, hcm5]
                  rw [hcm1] at hp
                  exact hie1.2.2 p hp
              have hndcm : (((CheckMaskCollisions
                  { s with pols := s.pols.set i (polStep pol0) }
                  (polStep pol0)).st.pols).map Pol.pid).Nodup := by
                rw [hcm1]
                exact hndset
              have hgetcm : ((CheckMaskCollisions
                  { s with pols := s.pols.set i (polStep pol0) }
                  (polStep pol0)).st.pols).get? i = some (polStep pol0) := by
                rw [hcm1]
                exact hgetset
              have hctres := checkTermination_inv _ (polStep pol0) us i
                (s.propList.getD i 0) hiecm hndcm hgetcm hcterr
              split
              · rename_i hterm
                intro _
                exact hctres.1 hterm
              · rename_i hterm
                obtain ⟨hf1, hf2, hf3, hf4, hf5⟩ :=
                  hctres.2 (by simpa using hterm)
                split
                · intro h; simp at h
                · rename_i hwguard
                  intro _
                  apply final_update_inv s _ i (polStep pol0) hinv hipll
                  · show (CheckTermination _ _ us).st.pols = s.pols.set i (polStep pol0)
                    rw [hf1, hcm1]
                  · show (CheckTermination _ _ us).st.propList = s.propList
                    rw [hf2, hcm2]
                  · show (CheckTermination _ _ us).st.propSum = s.propSum
                    rw [hf3, hcm3]
                  · show (CheckTermination _ _ us).st.start = s.start
                    rw [hf4, hcm4]
                  · show (CheckTermination _ _ us).st.weights = s.weights
                    rw [hf5, hcm5]
                  · simp only [Bool.or_eq_true, decide_eq_true_eq, not_or] at hwguard
                    omega
                  · simp only [Bool.or_eq_true, decide_eq_true_eq, not_or] at hwguard
                    omega

/-- C1: on every reachable state (the invariant holds and polymerase
identities are distinct), each of `Insert`, `Move` and `Terminate` that
returns normally preserves the propensity invariant: `|polymerases_| =
|prop_list_|`, `prop_list_[i] = weights_[stop − start_ − 1] · speed` for
every occupant, and `prop_sum_ = Σ prop_list_`. -/
theorem prop_invariant_preserved (s : PolymerState)
    (hinv : PropInvariant s) (hnd : (s.pols.map Pol.pid).Nodup) :
    (∀ pol, (Polymer.Insert s pol).err = none →
      PropInvariant (Polymer.Insert s pol).st) ∧
    (∀ i us, (Move s i us).err = none → PropInvariant (Move s i us).st) ∧
    (∀ pol g, (Terminate s pol g).err = none → PropInvariant (Terminate s pol g).st) :=
  ⟨fun pol => insert_inv s pol hinv,
    fun i us => move_inv s i us hinv hnd,
    fun pol g => terminate_inv s pol g hinv⟩

/-- An empty polymer `[1,100]` (no occupants yet). -/
def sC1 : PolymerState :=
  { name := "genome"
    start := 1
    stop := 100
    weights := List.replicate 100 (1 : Rat)
    mask := { name := "mask", start := 101, stop := 100, interactions := [] }
    bindingSites := []
    releaseSites := []
    pols := []
    propList := []
    propSum := 0
    uncovered := []
    speciesLog := []
    idx := 0 }

def polC1 : Pol :=
  { pid := 11, name := "rnapol", footprint := 10, speed := 1, start := 10, stop := 19,
    readingFrame := 0, slots := [] }

/-- Witness for C1: inserting a polymerase into the empty polymer `sC1`
preserves the invariant. -/
theorem prop_invariant_preserved_witness :
    PropInvariant (Polymer.Insert sC1 polC1).st :=
  (prop_invariant_preserved sC1 (by decide) (by decide)).1 polC1 (by decide)
